import Mathlib

/-!
Shallow embedding of the `slurm_scontrol` Ansible module
(`plugins/modules/slurm_scontrol.py`).

The module's interaction with the outside world (`module.run_command`) is
modelled by an environment `Env`: the liveness probe either succeeds or
raises, a per-node state query either returns a parsed `NodeRecord` or
raises (the raise is surfaced by `fail_json`), and an update submission
either raises (`none`) or returns an exit code (`some rc`) that the source
discards.  Every external invocation is recorded, in order, in a trace of
`ExtCall` entries so that "before any external call" style properties can
be stated.  `module.fail_json` terminates the run; it is modelled by the
`Outcome.failed` constructor carrying the message and the result
accumulator passed as `**result`.  An uncaught `KeyError` is modelled by
`Outcome.crashed` (it cannot occur on the reachable paths).
-/

/-- Python `str.upper()` restricted to the ASCII data the module handles. -/
def pyUpper (s : String) : String := ⟨s.data.map Char.toUpper⟩

/-- Python `str(x)` for an optional string: `None` prints as `"None"`. -/
def pyStr : Option String → String
  | none => "None"
  | some s => s

/-- Python truthiness of an optional string (`None` and `""` are falsy). -/
def pyTruthy : Option String → Bool
  | none => false
  | some s => !(s == "")

/-- The parsed `scontrol --yaml show node=...` record the module reads:
`state` is the node's list of state tokens, `reason` its reason string. -/
structure NodeRecord where
  state : List String
  reason : String
deriving DecidableEq

/-- The module-level constant `NODE_ALLOWED_STATES`. -/
def NODE_ALLOWED_STATES : List String :=
  ["DOWN", "DRAIN", "FAIL", "FUTURE", "NORESP", "POWER_DOWN",
   "POWER_DOWN_ASAP", "POWER_DOWN_FORCE", "POWER_UP", "RESUME", "UNDRAIN"]

/-- Python dict assignment `d[k] = v`: replace in place when the key is
present, append otherwise (dicts preserve insertion order). -/
def dictInsert (d : List (String × NodeRecord)) (k : String) (v : NodeRecord) :
    List (String × NodeRecord) :=
  if d.any (fun p => p.1 == k) then
    d.map (fun p => if p.1 == k then (k, v) else p)
  else d ++ [(k, v)]

/-- Python dict lookup `d[k]` (`none` models a `KeyError`). -/
def dictGet (d : List (String × NodeRecord)) (k : String) : Option NodeRecord :=
  (d.find? (fun p => p.1 == k)).map (fun p => p.2)

/-- The module's caller-supplied parameters. -/
structure Params where
  nodes : List String
  new_state : Option String
  new_state_reason : Option String
deriving DecidableEq

/-- The behaviour of the external world across one run: whether
`scontrol ping` raises, what each round of `scontrol --yaml show node=...`
queries returns (`none` = the invocation raises), and what each
`scontrol update ...` submission does (`none` = the invocation raises,
`some rc` = it returns with exit code `rc`, which the source discards). -/
structure Env where
  pingOk : Bool
  query1 : String → Option NodeRecord
  query2 : String → Option NodeRecord
  update : String → Option Int

/-- One recorded external invocation. -/
inductive ExtCall where
  | ping : ExtCall
  | query (node : String) : ExtCall
  | update (cmd : String) : ExtCall
deriving DecidableEq

/-- The `result` dict the module accumulates and returns. -/
structure ModuleResult where
  changed : Bool
  state_changed : Bool
  reason_changed : Bool
  scontrol_commands : List String
  data : Option (List (String × NodeRecord))
  scontrol_update_ran : Bool
deriving DecidableEq

/-- The initial `result` dict (`data` starts as the empty string `''`,
modelled by `none`). -/
def initResult : ModuleResult :=
  { changed := false, state_changed := false, reason_changed := false,
    scontrol_commands := [], data := none, scontrol_update_ran := false }

/-- How a run terminates: `exit_json(**result)`, `fail_json(msg, **result)`,
or an uncaught exception. -/
inductive Outcome where
  | exited (r : ModuleResult) : Outcome
  | failed (msg : String) (r : ModuleResult) : Outcome
  | crashed (msg : String) : Outcome
deriving DecidableEq

/-- The per-node test `not (str(new_state).upper() in nodes_1[node]['state'])`. -/
def stateChanged (obs : NodeRecord) (ns : String) : Bool :=
  !(obs.state.contains (pyUpper ns))

/-- The per-node test `not (str(new_state_reason) == nodes_1[node]['reason'])`. -/
def reasonChanged (obs : NodeRecord) (ro : Option String) : Bool :=
  !(pyStr ro == obs.reason)

/-- The f-string `scontrol update node={node} state={new_state}
reason="{new_state_reason}"` (the raw `new_state`, not upper-cased). -/
def cmdFor (node ns : String) (ro : Option String) : String :=
  s!"scontrol update node={node} state={ns} reason=\"{pyStr ro}\""

/-- `collectNodesStatus`: query each node in order; on the first raised
query, `fail_json` with a message naming the failing command.  Returns the
assembled dict together with the query calls made, or the failure message
together with the calls made up to and including the failing one. -/
def collectNodesStatus (q : String → Option NodeRecord) :
    List String → List (String × NodeRecord) →
    Except (String × List ExtCall) (List (String × NodeRecord) × List ExtCall)
  | [], acc => Except.ok (acc, [])
  | n :: rest, acc =>
    match q n with
    | none =>
      Except.error (s!"Calling scontrol --yaml show node={n} failed", [ExtCall.query n])
    | some obs =>
      match collectNodesStatus q rest (dictInsert acc n obs) with
      | Except.ok (d, ll) => Except.ok (d, ExtCall.query n :: ll)
      | Except.error (m, ll) => Except.error (m, ExtCall.query n :: ll)

/-- Why the update loop stopped early. -/
inductive LoopExit where
  | keyError (node : String) : LoopExit
  | updateFailed (cmd : String) (r : ModuleResult) : LoopExit

/-- The `for node in module.params['nodes']:` update loop.  Each iteration
overwrites `result['state_changed']` / `result['reason_changed']` with this
node's comparison, skips the node when neither flag is set, and otherwise
records the command, marks `scontrol_update_ran`, and (outside check mode)
submits it; a raised submission aborts via `fail_json`. -/
def applyLoop (ns : String) (ro : Option String) (cm : Bool) (env : Env)
    (d : List (String × NodeRecord)) :
    List String → ModuleResult →
    Except (LoopExit × List ExtCall) (ModuleResult × List ExtCall)
  | [], r => Except.ok (r, [])
  | node :: rest, r =>
    match dictGet d node with
    | none => Except.error (LoopExit.keyError node, [])
    | some obs =>
      let r1 := { r with state_changed := stateChanged obs ns,
                         reason_changed := reasonChanged obs ro }
      if !(stateChanged obs ns) && !(reasonChanged obs ro) then
        applyLoop ns ro cm env d rest r1
      else
        let cmd := cmdFor node ns ro
        let r2 := { r1 with scontrol_update_ran := true,
                            scontrol_commands := r1.scontrol_commands ++ [cmd] }
        if cm then
          applyLoop ns ro cm env d rest r2
        else
          match env.update cmd with
          | none => Except.error (LoopExit.updateFailed cmd r2, [ExtCall.update cmd])
          | some _ =>
            match applyLoop ns ro cm env d rest r2 with
            | Except.ok (r3, ll) => Except.ok (r3, ExtCall.update cmd :: ll)
            | Except.error (e, ll) => Except.error (e, ExtCall.update cmd :: ll)

/-- The tail of `run_module`: when `scontrol_update_ran`, re-collect every
node (round 2) and store it as `data`, else store the initial collection;
then set `changed = scontrol_update_ran` and `exit_json`. -/
def finishUp (p : Params) (env : Env) (nodes1 : List (String × NodeRecord))
    (r : ModuleResult) (log : List ExtCall) : Outcome × List ExtCall :=
  if r.scontrol_update_ran then
    match collectNodesStatus env.query2 p.nodes [] with
    | Except.error (m, ll) => (Outcome.failed m r, log ++ ll)
    | Except.ok (nodes2, ll) =>
      let r2 := { r with data := some nodes2 }
      (Outcome.exited { r2 with changed := r2.scontrol_update_ran }, log ++ ll)
  else
    let r2 := { r with data := some nodes1 }
    (Outcome.exited { r2 with changed := r2.scontrol_update_ran }, log)

/-- `run_module` after the sanity checks: probe, initial collection (or the
`No nodes provided` failure), the update loop when a new state was asked
for, then `finishUp`. -/
def runAfterChecks (p : Params) (cm : Bool) (env : Env) : Outcome × List ExtCall :=
  if !env.pingOk then
    (Outcome.failed "Calling scontrol ping failed" initResult, [ExtCall.ping])
  else if p.nodes.length > 0 then
    match collectNodesStatus env.query1 p.nodes [] with
    | Except.error (m, ll) => (Outcome.failed m initResult, ExtCall.ping :: ll)
    | Except.ok (nodes1, ll1) =>
      if pyTruthy p.new_state then
        match applyLoop (pyStr p.new_state) p.new_state_reason cm env nodes1
            p.nodes initResult with
        | Except.error (LoopExit.keyError n, ll2) =>
          (Outcome.crashed s!"KeyError: {n}", ExtCall.ping :: ll1 ++ ll2)
        | Except.error (LoopExit.updateFailed cmd r, ll2) =>
          (Outcome.failed s!"Calling {cmd} failed" r, ExtCall.ping :: ll1 ++ ll2)
        | Except.ok (r, ll2) => finishUp p env nodes1 r (ExtCall.ping :: ll1 ++ ll2)
      else
        finishUp p env nodes1 initResult (ExtCall.ping :: ll1)
  else
    (Outcome.failed "No nodes provided, that's unexpeted." initResult, [ExtCall.ping])

/-- `fail_json` message of the `new_state not allowed` check (the source
interpolates the allowed-states list into it; the exact text plays no role). -/
def invalidStateMsg : String :=
  "new_state is not in ['DOWN', 'DRAIN', 'FAIL', 'FUTURE', 'NORESP', 'POWER_DOWN', 'POWER_DOWN_ASAP', 'POWER_DOWN_FORCE', 'POWER_UP', 'RESUME', 'UNDRAIN']"

/-- `fail_json` message of the missing-drain-reason check. -/
def drainMsg : String :=
  "If next state if drain, we need 'new_state_reason' argument to be specified."

/-- The whole of `run_module`: the sanity checks (allowed-state membership;
for DRAIN, `len(str(reason)) > 1` and `reason != None`), then
`runAfterChecks`.  The second component is the ordered trace of every
external invocation the run made. -/
def run_module (p : Params) (cm : Bool) (env : Env) : Outcome × List ExtCall :=
  if pyTruthy p.new_state then
    if !(NODE_ALLOWED_STATES.contains (pyUpper (pyStr p.new_state))) then
      (Outcome.failed invalidStateMsg initResult, [])
    else if pyUpper (pyStr p.new_state) == "DRAIN"
        && !((pyStr p.new_state_reason).length > 1 && p.new_state_reason.isSome) then
      (Outcome.failed drainMsg initResult, [])
    else runAfterChecks p cm env
  else runAfterChecks p cm env

/-- The update commands occurring in a trace, in order. -/
def updatesOf (l : List ExtCall) : List String :=
  l.filterMap (fun e => match e with | ExtCall.update c => some c | _ => none)

/-- Whether a recorded external call is a per-node state query. -/
def isQueryCall : ExtCall → Bool
  | ExtCall.query _ => true
  | _ => false

/-- Whether the loop would emit an action for node `n` against snapshot `d`. -/
def actionNeeded (d : List (String × NodeRecord)) (ns : String) (ro : Option String)
    (n : String) : Bool :=
  match dictGet d n with
  | some obs => stateChanged obs ns || reasonChanged obs ro
  | none => false

/-- The `state_changed` comparison for node `n` against snapshot `d`. -/
def nodeStateFlag (d : List (String × NodeRecord)) (ns : String) (n : String) : Bool :=
  match dictGet d n with
  | some obs => stateChanged obs ns
  | none => false

/-- The `reason_changed` comparison for node `n` against snapshot `d`. -/
def nodeReasonFlag (d : List (String × NodeRecord)) (ro : Option String) (n : String) : Bool :=
  match dictGet d n with
  | some obs => reasonChanged obs ro
  | none => false

/-- The value `result['state_changed']` holds after the loop has overwritten
it once per node, starting from `b`. -/
def lastStateFlag (d : List (String × NodeRecord)) (ns : String) :
    List String → Bool → Bool
  | [], b => b
  | n :: rest, _ => lastStateFlag d ns rest (nodeStateFlag d ns n)

/-- The value `result['reason_changed']` holds after the loop has overwritten
it once per node, starting from `b`. -/
def lastReasonFlag (d : List (String × NodeRecord)) (ro : Option String) :
    List String → Bool → Bool
  | [], b => b
  | n :: rest, _ => lastReasonFlag d ro rest (nodeReasonFlag d ro n)

/-- Whether the parameters pass the module's sanity checks (so that the run
reaches `runAfterChecks`). -/
def paramsValid (p : Params) : Bool :=
  if pyTruthy p.new_state then
    NODE_ALLOWED_STATES.contains (pyUpper (pyStr p.new_state)) &&
      (!(pyUpper (pyStr p.new_state) == "DRAIN") ||
        ((pyStr p.new_state_reason).length > 1 && p.new_state_reason.isSome))
  else true

/-- A benign environment: probe succeeds, every query parses to an idle
record, every update returns exit code 0. -/
def envBase : Env :=
  ⟨true, fun _ => some ⟨["IDLE"], ""⟩, fun _ => some ⟨["IDLE"], ""⟩, fun _ => some 0⟩

/-- The trace component of an update-loop result. -/
def loopLog :
    Except (LoopExit × List ExtCall) (ModuleResult × List ExtCall) → List ExtCall
  | Except.ok (_, ll) => ll
  | Except.error (_, ll) => ll

/-- An environment whose state query raises for node `A` and succeeds for
every other node. -/
def envC4 : Env :=
  ⟨true, fun n => if n == "A" then none else some ⟨["IDLE"], ""⟩,
   fun _ => some ⟨["IDLE"], ""⟩, fun _ => some 0⟩

/-- A record already drained with reason `mnt`. -/
def recDrained : NodeRecord := ⟨["DRAIN"], "mnt"⟩

/-- An environment where every node is already drained with reason `mnt`. -/
def envIdem : Env :=
  ⟨true, fun _ => some recDrained, fun _ => some recDrained, fun _ => some 0⟩

/-- The snapshot `collectNodesStatus` assembles under `envIdem` for nodes
`n1, n2`. -/
def dIdem : List (String × NodeRecord) := [("n1", recDrained), ("n2", recDrained)]

/-- The report of the idempotent run under `envIdem`. -/
def rIdem : ModuleResult :=
  { changed := false, state_changed := false, reason_changed := false,
    scontrol_commands := [], data := some dIdem, scontrol_update_ran := false }

/-- The report of a one-node drain run under `envBase`. -/
def rC1w : ModuleResult :=
  { changed := true, state_changed := true, reason_changed := true,
    scontrol_commands := ["scontrol update node=n1 state=DRAIN reason=\"mnt\""],
    data := some [("n1", ⟨["IDLE"], ""⟩)], scontrol_update_ran := true }

/-- An environment whose second-round query returns a different record than
the first round (the outside world changed between the two collections). -/
def envC3 : Env :=
  ⟨true, fun _ => some ⟨["IDLE"], ""⟩, fun _ => some ⟨["IDLE", "DRAIN"], "other"⟩,
   fun _ => some 0⟩

/-- Parameters of the one-node drain scenario. -/
def pC3 : Params := ⟨["n2"], some "DRAIN", some "mnt"⟩

/-- The report of the check-mode run of `pC3` under `envC3`. -/
def rC3x : ModuleResult :=
  { changed := true, state_changed := true, reason_changed := true,
    scontrol_commands := ["scontrol update node=n2 state=DRAIN reason=\"mnt\""],
    data := some [("n2", ⟨["IDLE", "DRAIN"], "other"⟩)], scontrol_update_ran := true }

/-- An environment where `n1` is idle (reason already `mnt`) and every
other node is already drained with reason `mnt`. -/
def envC9 : Env :=
  ⟨true, fun n => if n == "n1" then some ⟨["IDLE"], "mnt"⟩ else some recDrained,
   fun _ => some recDrained, fun _ => some 0⟩

/-- Parameters of the two-node drain scenario. -/
def pC9 : Params := ⟨["n1", "n2"], some "DRAIN", some "mnt"⟩

/-- The report of the run of `pC9` under `envC9`: only `n1` needed an
action, yet the scalar decision fields hold the last node's comparison. -/
def rC9x : ModuleResult :=
  { changed := true, state_changed := false, reason_changed := false,
    scontrol_commands := ["scontrol update node=n1 state=DRAIN reason=\"mnt\""],
    data := some [("n1", recDrained), ("n2", recDrained)],
    scontrol_update_ran := true }

/-- The external trace of the run of `pC9` under `envC9`. -/
def logC9 : List ExtCall :=
  [ExtCall.ping, ExtCall.query "n1", ExtCall.query "n2",
   ExtCall.update "scontrol update node=n1 state=DRAIN reason=\"mnt\"",
   ExtCall.query "n1", ExtCall.query "n2"]

/-- The first-round snapshot of the run of `pC9` under `envC9`. -/
def dC9 : List (String × NodeRecord) := [("n1", ⟨["IDLE"], "mnt"⟩), ("n2", recDrained)]

/-- An environment where every update command returns exit code 1
(non-success) without raising. -/
def envRc : Env :=
  ⟨true, fun _ => some ⟨["IDLE"], ""⟩, fun _ => some ⟨["IDLE"], ""⟩, fun _ => some 1⟩

/-- An environment where every update invocation raises. -/
def envRaise : Env :=
  ⟨true, fun _ => some ⟨["IDLE"], ""⟩, fun _ => some ⟨["IDLE"], ""⟩, fun _ => none⟩

/-- The update command the run issues for node `n1` when draining with
reason `mnt`. -/
def cmdN1 : String := "scontrol update node=n1 state=DRAIN reason=\"mnt\""

/-- The partial report `fail_json` carries when submitting `cmdN1` raises. -/
def rFail : ModuleResult :=
  { changed := false, state_changed := true, reason_changed := true,
    scontrol_commands := [cmdN1], data := none, scontrol_update_ran := true }

/-- The outcome of the two-node drain run under `envRaise`. -/
def outC2w : Outcome := Outcome.failed "Calling scontrol update node=n1 state=DRAIN reason=\"mnt\" failed" rFail

/-- The external trace of the two-node drain run under `envRaise`. -/
def logC2w : List ExtCall :=
  [ExtCall.ping, ExtCall.query "n1", ExtCall.query "n2", ExtCall.update cmdN1]

/-! Lemmas about the embedded operations, and the theorems settling the claims. -/

lemma collect_ok_log (q : String → Option NodeRecord) :
    ∀ nodes acc d ll, collectNodesStatus q nodes acc = Except.ok (d, ll) →
      ll = nodes.map ExtCall.query := by
  intro nodes
  induction nodes with
  | nil =>
    intro acc d ll h
    simp only [collectNodesStatus, Except.ok.injEq, Prod.mk.injEq] at h
    simp [h.2.symm]
  | cons n rest ih =>
    intro acc d ll h
    cases hq : q n with
    | none => simp [collectNodesStatus, hq] at h
    | some obs =>
      cases hrec : collectNodesStatus q rest (dictInsert acc n obs) with
      | ok pr =>
        obtain ⟨d1, ll1⟩ := pr
        simp [collectNodesStatus, hq, hrec] at h
        rw [← h.2, ih _ _ _ hrec]
        simp
      | error pr =>
        obtain ⟨m, ll1⟩ := pr
        simp [collectNodesStatus, hq, hrec] at h

lemma collect_error_log (q : String → Option NodeRecord) :
    ∀ nodes acc m ll, collectNodesStatus q nodes acc = Except.error (m, ll) →
      ∃ qs : List String, ll = qs.map ExtCall.query := by
  intro nodes
  induction nodes with
  | nil =>
    intro acc m ll h
    simp [collectNodesStatus] at h
  | cons n rest ih =>
    intro acc m ll h
    cases hq : q n with
    | none =>
      simp [collectNodesStatus, hq] at h
      exact ⟨[n], by simp [← h.2]⟩
    | some obs =>
      cases hrec : collectNodesStatus q rest (dictInsert acc n obs) with
      | ok pr =>
        obtain ⟨d1, ll1⟩ := pr
        simp [collectNodesStatus, hq, hrec] at h
      | error pr =>
        obtain ⟨m1, ll1⟩ := pr
        simp [collectNodesStatus, hq, hrec] at h
        obtain ⟨qs, hqs⟩ := ih _ _ _ hrec
        exact ⟨n :: qs, by simp [← h.2, hqs]⟩

lemma collect_error_at (q : String → Option NodeRecord) :
    ∀ pre n post acc, (∀ m ∈ pre, (q m).isSome = true) → q n = none →
      collectNodesStatus q (pre ++ n :: post) acc =
        Except.error (s!"Calling scontrol --yaml show node={n} failed",
          (pre ++ [n]).map ExtCall.query) := by
  intro pre
  induction pre with
  | nil =>
    intro n post acc _ hq
    simp [collectNodesStatus, hq]
  | cons m rest ih =>
    intro n post acc hpre hq
    have hm : (q m).isSome = true := hpre m (by simp)
    obtain ⟨obs, hobs⟩ := Option.isSome_iff_exists.mp hm
    have hrec := ih n post (dictInsert acc m obs) (fun x hx => hpre x (by simp [hx])) hq
    simp [collectNodesStatus, hobs, hrec]

lemma run_module_valid (p : Params) (cm : Bool) (env : Env) (h : paramsValid p = true) :
    run_module p cm env = runAfterChecks p cm env := by
  unfold run_module
  unfold paramsValid at h
  by_cases hpt : pyTruthy p.new_state = true
  · rw [if_pos hpt] at h
    rw [if_pos hpt]
    rw [Bool.and_eq_true] at h
    obtain ⟨h1, h2⟩ := h
    rw [h1]
    by_cases hA : (pyUpper (pyStr p.new_state) == "DRAIN") = true
    · rw [hA] at h2
      simp only [Bool.not_true, Bool.false_or] at h2
      simp [hA, h2]
    · simp only [Bool.not_eq_true] at hA
      simp [hA]
  · rw [if_neg hpt]

lemma runAfterChecks_head (p : Params) (cm : Bool) (env : Env) :
    (runAfterChecks p cm env).2.head? = some ExtCall.ping := by
  unfold runAfterChecks finishUp
  repeat' split
  all_goals simp

/-- C4: for every ordered node list, if the per-node state query fails for
some node, collection stops at that node (fail-fast), no map is returned
and the run ends with a query error naming that node; no decision is
computed for any later node (the result is still `initResult`). -/
theorem slurm_C4_collect_fail_fast :
    (∀ (q : String → Option NodeRecord) pre n post acc,
      (∀ m ∈ pre, (q m).isSome = true) → q n = none →
      collectNodesStatus q (pre ++ n :: post) acc =
        Except.error (s!"Calling scontrol --yaml show node={n} failed",
          (pre ++ [n]).map ExtCall.query)) ∧
    (∀ p cm env pre n post,
      p.new_state = some "RESUME" → p.nodes = pre ++ n :: post →
      env.pingOk = true →
      (∀ m ∈ pre, (env.query1 m).isSome = true) → env.query1 n = none →
      run_module p cm env =
        (Outcome.failed (s!"Calling scontrol --yaml show node={n} failed") initResult,
         ExtCall.ping :: (pre ++ [n]).map ExtCall.query)) := by
  constructor
  · exact collect_error_at
  · intro p cm env pre n post hns hnodes hping hpre hq
    have hcol := collect_error_at env.query1 pre n post [] hpre hq
    have hv : paramsValid p = true := by
      unfold paramsValid
      rw [hns]
      have e1 : pyTruthy (some "RESUME") = true := by decide
      have e2 : NODE_ALLOWED_STATES.contains (pyUpper (pyStr (some "RESUME"))) = true := by
        decide
      have e3 : (!(pyUpper (pyStr (some "RESUME")) == "DRAIN")) = true := by decide
      have e4 : pyUpper (pyStr (some "RESUME")) ∈ NODE_ALLOWED_STATES := by decide
      simp [e1, e2, e3, e4]
    rw [run_module_valid p cm env hv]
    unfold runAfterChecks
    rw [hping, hnodes, hcol]
    have hlen : ((pre ++ n :: post).length > 0) := by simp
    simp [hlen, hns, pyTruthy]

/-- C5 counterexample: with an empty node list (and otherwise valid input)
the run does make an external call before failing: the liveness probe is
invoked, contradicting the claim that the configuration error precedes any
external call. -/
theorem slurm_C5_counterexample :
    run_module ⟨[], none, none⟩ false envBase =
      (Outcome.failed "No nodes provided, that's unexpeted." initResult, [ExtCall.ping]) ∧
    (run_module ⟨[], none, none⟩ false envBase).2 ≠ [] := by decide

/-- C5 (amended): with an empty node list and parameters passing the
sanity checks, the run probes the controller first and then fails with the
no-nodes configuration error; no per-node query is ever issued (the trace
is exactly the probe). -/
theorem slurm_C5_empty_nodes_amended (p : Params) (cm : Bool) (env : Env)
    (h1 : p.nodes = []) (h2 : paramsValid p = true) (h3 : env.pingOk = true) :
    run_module p cm env =
      (Outcome.failed "No nodes provided, that's unexpeted." initResult, [ExtCall.ping]) := by
  rw [run_module_valid p cm env h2]
  unfold runAfterChecks
  simp [h1, h3]

/-- C5 witness: the amended statement at a concrete input. -/
theorem slurm_C5_witness :
    run_module ⟨[], some "RESUME", none⟩ true envBase =
      (Outcome.failed "No nodes provided, that's unexpeted." initResult, [ExtCall.ping]) :=
  slurm_C5_empty_nodes_amended ⟨[], some "RESUME", none⟩ true envBase rfl
    (show paramsValid ⟨[], some "RESUME", none⟩ = true by decide) rfl

/-- C6: an invalid target token (not in the allowed set after upper-casing)
and a DRAIN target with no reason supplied are each rejected by `fail_json`
before the liveness probe and before any per-node query (the external-call
trace is empty), for any node list. -/
theorem slurm_C6_validation_precedence :
    (∀ p cm env, pyTruthy p.new_state = true →
      NODE_ALLOWED_STATES.contains (pyUpper (pyStr p.new_state)) = false →
      run_module p cm env = (Outcome.failed invalidStateMsg initResult, [])) ∧
    (∀ p cm env, pyTruthy p.new_state = true →
      pyUpper (pyStr p.new_state) = "DRAIN" →
      p.new_state_reason = none →
      run_module p cm env = (Outcome.failed drainMsg initResult, [])) := by
  constructor
  · intro p cm env h1 h2
    have h2' : pyUpper (pyStr p.new_state) ∉ NODE_ALLOWED_STATES := by
      simpa using h2
    simp [run_module, h1, h2']
  · intro p cm env h1 h2 h3
    have hmem : "DRAIN" ∈ NODE_ALLOWED_STATES := by decide
    simp [run_module, h1, h2, h3, hmem]

/-- C6 witness: both rejections at concrete inputs (token `BOGUS`; token
`drain` with no reason), each with an empty external trace. -/
theorem slurm_C6_witness :
    run_module ⟨["n1"], some "BOGUS", none⟩ false envBase =
      (Outcome.failed invalidStateMsg initResult, []) ∧
    run_module ⟨["n1"], some "drain", none⟩ false envBase =
      (Outcome.failed drainMsg initResult, []) :=
  ⟨slurm_C6_validation_precedence.1 ⟨["n1"], some "BOGUS", none⟩ false envBase
      (by decide) (by decide),
   slurm_C6_validation_precedence.2 ⟨["n1"], some "drain", none⟩ false envBase
      (by decide) (by decide) rfl⟩

/-- C10: with a DRAIN target (any letter case) and a supplied reason of
length at most 1, the run is rejected with the same configuration error as
a missing reason, before any external call (empty trace); with a reason of
length at least 2 the checks pass and the run proceeds to the liveness
probe as its first external call. -/
theorem slurm_C10_short_drain_reason :
    (∀ p cm env ns s, p.new_state = some ns → pyUpper ns = "DRAIN" →
      p.new_state_reason = some s → s.length ≤ 1 →
      run_module p cm env = (Outcome.failed drainMsg initResult, [])) ∧
    (∀ p cm env ns s, p.new_state = some ns → pyUpper ns = "DRAIN" →
      p.new_state_reason = some s → 1 < s.length →
      (run_module p cm env).2.head? = some ExtCall.ping) := by
  have hmem : "DRAIN" ∈ NODE_ALLOWED_STATES := by decide
  constructor
  · intro p cm env ns s h1 h2 h3 h4
    have hne : ns ≠ "" := by
      intro he
      rw [he] at h2
      exact absurd h2 (by decide)
    have hbe : (ns == "") = false := beq_eq_false_iff_ne.mpr hne
    simp [run_module, h1, h2, h3, h4, pyTruthy, pyStr, hbe, hmem]
  · intro p cm env ns s h1 h2 h3 h4
    have hne : ns ≠ "" := by
      intro he
      rw [he] at h2
      exact absurd h2 (by decide)
    have hbe : (ns == "") = false := beq_eq_false_iff_ne.mpr hne
    have hlen2 : ¬(s.length ≤ 1) := by omega
    have hred : run_module p cm env = runAfterChecks p cm env := by
      simp [run_module, h1, h2, h3, pyTruthy, pyStr, hbe, hlen2, hmem]
    rw [hred]
    exact runAfterChecks_head p cm env

/-- C10 witness: a one-character reason is rejected with an empty trace; a
two-character reason reaches the probe. -/
theorem slurm_C10_witness :
    run_module ⟨["n1"], some "Drain", some "x"⟩ false envBase =
      (Outcome.failed drainMsg initResult, []) ∧
    (run_module ⟨["n1"], some "Drain", some "xy"⟩ false envBase).2.head? =
      some ExtCall.ping :=
  ⟨slurm_C10_short_drain_reason.1 ⟨["n1"], some "Drain", some "x"⟩ false envBase
      "Drain" "x" rfl (by decide) rfl (by decide),
   slurm_C10_short_drain_reason.2 ⟨["n1"], some "Drain", some "xy"⟩ false envBase
      "Drain" "xy" rfl (by decide) rfl (by decide)⟩

/-- C4 witness: with nodes `[A, B]` and the query for `A` raising, the
collector stops at `A` and the whole run fails with the query error after
probing and querying only `A`; no decision fields are set and no data map
is reported. -/
theorem slurm_C4_witness :
    collectNodesStatus envC4.query1 (([] : List String) ++ "A" :: ["B"]) [] =
      Except.error ("Calling scontrol --yaml show node=A failed",
        [ExtCall.query "A"]) ∧
    run_module ⟨["A", "B"], some "RESUME", none⟩ false envC4 =
      (Outcome.failed "Calling scontrol --yaml show node=A failed" initResult,
       [ExtCall.ping, ExtCall.query "A"]) :=
  ⟨slurm_C4_collect_fail_fast.1 envC4.query1 [] "A" ["B"] [] (by simp) (by decide),
   slurm_C4_collect_fail_fast.2 ⟨["A", "B"], some "RESUME", none⟩ false envC4 [] "A" ["B"]
     rfl rfl rfl (by simp) (by decide)⟩

/-- C7: against an observed record, `stateChanged` is exactly
non-membership of the upper-cased target token in the observed token set
(membership, not equality: a record carrying the target token among others
is "unchanged"), and `reasonChanged` is exact string inequality between
the stringified desired reason and the observed reason, with an unset
desired reason compared as the literal text `None`. -/
theorem slurm_C7_diff_rules :
    ∀ (obs : NodeRecord) (ns : String) (ro : Option String),
      (stateChanged obs ns = true ↔ pyUpper ns ∉ obs.state) ∧
      (reasonChanged obs ro = true ↔ pyStr ro ≠ obs.reason) ∧
      (reasonChanged obs none = true ↔ obs.reason ≠ "None") ∧
      (∀ t r, stateChanged ⟨[t, pyUpper ns], r⟩ ns = false) := by
  intro obs ns ro
  refine ⟨?_, ?_, ?_, ?_⟩
  · simp [stateChanged]
  · simp [reasonChanged]
  · simp [reasonChanged, pyStr]
    exact ne_comm
  · intro t r
    simp [stateChanged]

lemma applyLoop_ok (ns : String) (ro : Option String) (cm : Bool) (env : Env)
    (d : List (String × NodeRecord)) :
    ∀ nodes r r2 ll, applyLoop ns ro cm env d nodes r = Except.ok (r2, ll) →
      r2.scontrol_commands = r.scontrol_commands ++
        (nodes.filter (actionNeeded d ns ro)).map (fun n => cmdFor n ns ro) ∧
      r2.scontrol_update_ran = (r.scontrol_update_ran || nodes.any (actionNeeded d ns ro)) ∧
      r2.state_changed = lastStateFlag d ns nodes r.state_changed ∧
      r2.reason_changed = lastReasonFlag d ro nodes r.reason_changed ∧
      r2.changed = r.changed ∧
      r2.data = r.data := by
  intro nodes
  induction nodes with
  | nil =>
    intro r r2 ll h
    simp only [applyLoop, Except.ok.injEq, Prod.mk.injEq] at h
    simp [← h.1, lastStateFlag, lastReasonFlag]
  | cons node rest ih =>
    intro r r2 ll h
    cases hg : dictGet d node with
    | none => simp [applyLoop, hg] at h
    | some obs =>
      have hstate : nodeStateFlag d ns node = stateChanged obs ns := by
        simp [nodeStateFlag, hg]
      have hreason : nodeReasonFlag d ro node = reasonChanged obs ro := by
        simp [nodeReasonFlag, hg]
      by_cases hna : (!(stateChanged obs ns) && !(reasonChanged obs ro)) = true
      · have hna' := hna
        rw [Bool.and_eq_true, Bool.not_eq_true', Bool.not_eq_true'] at hna'
        have hneed : actionNeeded d ns ro node = false := by
          simp [actionNeeded, hg, hna'.1, hna'.2]
        rw [applyLoop] at h
        rw [hg] at h
        simp only [if_pos hna] at h
        obtain ⟨hcmd, hup, hsf, hrf, hch, hda⟩ := ih _ _ _ h
        refine ⟨by simpa [hneed] using hcmd, by simpa [hneed] using hup, ?_, ?_, hch, hda⟩
        · rw [hsf]
          simp [lastStateFlag, hstate]
        · rw [hrf]
          simp [lastReasonFlag, hreason]
      · have hor : (stateChanged obs ns || reasonChanged obs ro) = true := by
          cases hs : stateChanged obs ns <;> cases hr : reasonChanged obs ro <;> simp_all
        have hneed : actionNeeded d ns ro node = true := by
          simpa [actionNeeded, hg] using hor
        rw [applyLoop] at h
        rw [hg] at h
        simp only [if_neg hna] at h
        by_cases hcm : cm = true
        · rw [hcm] at h ih
          simp only [if_pos rfl] at h
          obtain ⟨hcmd, hup, hsf, hrf, hch, hda⟩ := ih _ _ _ h
          refine ⟨?_, ?_, ?_, ?_, hch, hda⟩
          · rw [hcmd]
            simp [hneed, List.append_assoc]
          · rw [hup]
            simp [hneed]
          · rw [hsf]
            simp [lastStateFlag, hstate]
          · rw [hrf]
            simp [lastReasonFlag, hreason]
        · have hcm' : cm = false := by simpa using hcm
          rw [hcm'] at h ih
          simp only [Bool.false_eq_true, if_false] at h
          cases hupd : env.update (cmdFor node ns ro) with
          | none => rw [hupd] at h; simp at h
          | some rc =>
            rw [hupd] at h
            cases hrec : applyLoop ns ro false env d rest
                { r with state_changed := stateChanged obs ns,
                         reason_changed := reasonChanged obs ro,
                         scontrol_update_ran := true,
                         scontrol_commands := r.scontrol_commands ++ [cmdFor node ns ro] } with
            | ok pr =>
              obtain ⟨r3, ll3⟩ := pr
              rw [hrec] at h
              simp only [Except.ok.injEq, Prod.mk.injEq] at h
              obtain ⟨hcmd, hup, hsf, hrf, hch, hda⟩ := ih _ _ _ hrec
              rw [← h.1]
              refine ⟨?_, ?_, ?_, ?_, hch, hda⟩
              · rw [hcmd]
                simp [hneed, List.append_assoc]
              · rw [hup]
                simp [hneed]
              · rw [hsf]
                simp [lastStateFlag, hstate]
              · rw [hrf]
                simp [lastReasonFlag, hreason]
            | error pr =>
              obtain ⟨e, ll3⟩ := pr
              rw [hrec] at h
              simp at h

lemma applyLoop_check_log (ns : String) (ro : Option String) (env : Env)
    (d : List (String × NodeRecord)) :
    ∀ nodes r, loopLog (applyLoop ns ro true env d nodes r) = [] := by
  intro nodes
  induction nodes with
  | nil => intro r; simp [applyLoop, loopLog]
  | cons node rest ih =>
    intro r
    cases hg : dictGet d node with
    | none => simp [applyLoop, hg, loopLog]
    | some obs =>
      rw [applyLoop, hg]
      by_cases hna : (!(stateChanged obs ns) && !(reasonChanged obs ro)) = true
      · simp only [if_pos hna]
        exact ih _
      · simp only [if_neg hna, if_pos rfl]
        exact ih _

lemma applyLoop_updates (ns : String) (ro : Option String) (env : Env)
    (d : List (String × NodeRecord)) :
    ∀ nodes r,
      (∀ c, ExtCall.update c ∈ loopLog (applyLoop ns ro false env d nodes r) →
        (env.update c).isSome = true) ∨
      (∃ c rf pre, applyLoop ns ro false env d nodes r =
          Except.error (LoopExit.updateFailed c rf, pre ++ [ExtCall.update c]) ∧
        env.update c = none ∧
        (∀ c2, ExtCall.update c2 ∈ pre → (env.update c2).isSome = true)) := by
  intro nodes
  induction nodes with
  | nil =>
    intro r
    left
    intro c hc
    simp [applyLoop, loopLog] at hc
  | cons node rest ih =>
    intro r
    cases hg : dictGet d node with
    | none =>
      left
      intro c hc
      rw [applyLoop, hg] at hc
      simp [loopLog] at hc
    | some obs =>
      by_cases hna : (!(stateChanged obs ns) && !(reasonChanged obs ro)) = true
      · have : applyLoop ns ro false env d (node :: rest) r =
            applyLoop ns ro false env d rest
              { r with state_changed := stateChanged obs ns,
                       reason_changed := reasonChanged obs ro } := by
          rw [applyLoop, hg]
          simp only [if_pos hna]
        rw [this]
        exact ih _
      · cases hupd : env.update (cmdFor node ns ro) with
        | none =>
          right
          refine ⟨cmdFor node ns ro,
            { r with state_changed := stateChanged obs ns,
                     reason_changed := reasonChanged obs ro,
                     scontrol_update_ran := true,
                     scontrol_commands := r.scontrol_commands ++ [cmdFor node ns ro] },
            [], ?_, hupd, by simp⟩
          rw [applyLoop, hg]
          simp only [if_neg hna, Bool.false_eq_true, if_false, hupd]
          rfl
        | some rc =>
          have hstep : applyLoop ns ro false env d (node :: rest) r =
              match applyLoop ns ro false env d rest
                  { r with state_changed := stateChanged obs ns,
                           reason_changed := reasonChanged obs ro,
                           scontrol_update_ran := true,
                           scontrol_commands := r.scontrol_commands ++ [cmdFor node ns ro] } with
              | Except.ok (r3, ll) => Except.ok (r3, ExtCall.update (cmdFor node ns ro) :: ll)
              | Except.error (e, ll) =>
                Except.error (e, ExtCall.update (cmdFor node ns ro) :: ll) := by
            rw [applyLoop, hg]
            simp only [if_neg hna, Bool.false_eq_true, if_false, hupd]
          rcases ih { r with state_changed := stateChanged obs ns,
                             reason_changed := reasonChanged obs ro,
                             scontrol_update_ran := true,
                             scontrol_commands := r.scontrol_commands ++ [cmdFor node ns ro] } with
            hall | ⟨c, rf, pre, heq, hnone, hpresafe⟩
          · left
            intro c hc
            rw [hstep] at hc
            cases hrec : applyLoop ns ro false env d rest
                { r with state_changed := stateChanged obs ns,
                         reason_changed := reasonChanged obs ro,
                         scontrol_update_ran := true,
                         scontrol_commands := r.scontrol_commands ++ [cmdFor node ns ro] } with
            | ok pr =>
              obtain ⟨r3, ll3⟩ := pr
              rw [hrec] at hc
              simp only [loopLog, List.mem_cons] at hc
              rcases hc with hc | hc
              · obtain rfl : c = cmdFor node ns ro := by
                  cases hc
                  rfl
                simp [hupd]
              · exact hall c (by rw [hrec]; simpa [loopLog] using hc)
            | error pr =>
              obtain ⟨e, ll3⟩ := pr
              rw [hrec] at hc
              simp only [loopLog, List.mem_cons] at hc
              rcases hc with hc | hc
              · obtain rfl : c = cmdFor node ns ro := by
                  cases hc
                  rfl
                simp [hupd]
              · exact hall c (by rw [hrec]; simpa [loopLog] using hc)
          · right
            refine ⟨c, rf, ExtCall.update (cmdFor node ns ro) :: pre, ?_, hnone, ?_⟩
            · rw [hstep, heq]
              simp [List.cons_append]
            · intro c2 hc2
              rcases List.mem_cons.mp hc2 with hc2 | hc2
              · obtain rfl : c2 = cmdFor node ns ro := by
                  cases hc2
                  rfl
                simp [hupd]
              · exact hpresafe c2 hc2

lemma run_module_invalid (p : Params) (cm : Bool) (env : Env)
    (h : paramsValid p = false) :
    run_module p cm env = (Outcome.failed invalidStateMsg initResult, []) ∨
    run_module p cm env = (Outcome.failed drainMsg initResult, []) := by
  unfold run_module
  unfold paramsValid at h
  by_cases hpt : pyTruthy p.new_state = true
  · rw [if_pos hpt] at h ⊢
    by_cases hc : NODE_ALLOWED_STATES.contains (pyUpper (pyStr p.new_state)) = true
    · rw [hc] at h
      simp only [Bool.true_and] at h
      rw [Bool.or_eq_false_iff] at h
      obtain ⟨h1, h2⟩ := h
      rw [Bool.not_eq_false'] at h1
      right
      rw [hc]
      simp [h1, h2]
    · have hc' : (NODE_ALLOWED_STATES.contains (pyUpper (pyStr p.new_state))) = false := by
        simpa using hc
      left
      rw [hc']
      simp
  · rw [if_neg hpt] at h
    simp at h

lemma finishUp_exited (p : Params) (env : Env) (d1 : List (String × NodeRecord))
    (rmid : ModuleResult) (log0 log : List ExtCall) (r : ModuleResult)
    (h : finishUp p env d1 rmid log0 = (Outcome.exited r, log)) :
    r.changed = rmid.scontrol_update_ran ∧
    r.scontrol_update_ran = rmid.scontrol_update_ran ∧
    r.scontrol_commands = rmid.scontrol_commands ∧
    r.state_changed = rmid.state_changed ∧
    r.reason_changed = rmid.reason_changed ∧
    ((rmid.scontrol_update_ran = true ∧
      ∃ d2 ll, collectNodesStatus env.query2 p.nodes [] = Except.ok (d2, ll) ∧
        r.data = some d2 ∧ log = log0 ++ ll) ∨
     (rmid.scontrol_update_ran = false ∧ r.data = some d1 ∧ log = log0)) := by
  unfold finishUp at h
  by_cases hup : rmid.scontrol_update_ran = true
  · rw [if_pos hup] at h
    cases hcol : collectNodesStatus env.query2 p.nodes [] with
    | error pr =>
      obtain ⟨m, ll⟩ := pr
      rw [hcol] at h
      simp at h
    | ok pr =>
      obtain ⟨d2, ll⟩ := pr
      rw [hcol] at h
      simp only [Prod.mk.injEq, Outcome.exited.injEq] at h
      obtain ⟨hr, hlog⟩ := h
      rw [← hr]
      exact ⟨by simp [hup], by simp, by simp, by simp, by simp,
        Or.inl ⟨hup, d2, ll, rfl, by simp, hlog.symm⟩⟩
  · have hup' : rmid.scontrol_update_ran = false := by simpa using hup
    rw [if_neg hup] at h
    simp only [Prod.mk.injEq, Outcome.exited.injEq] at h
    obtain ⟨hr, hlog⟩ := h
    rw [← hr]
    exact ⟨by simp [hup'], by simp, by simp, by simp, by simp,
      Or.inr ⟨hup', by simp, hlog.symm⟩⟩

lemma run_exited_cases (p : Params) (cm : Bool) (env : Env) (r : ModuleResult)
    (log : List ExtCall)
    (h : run_module p cm env = (Outcome.exited r, log)) :
    ∃ d1 ll1 rmid ll2,
      collectNodesStatus env.query1 p.nodes [] = Except.ok (d1, ll1) ∧
      ((pyTruthy p.new_state = true ∧
        applyLoop (pyStr p.new_state) p.new_state_reason cm env d1 p.nodes initResult =
          Except.ok (rmid, ll2)) ∨
       (pyTruthy p.new_state = false ∧ rmid = initResult ∧ ll2 = [])) ∧
      finishUp p env d1 rmid (ExtCall.ping :: ll1 ++ ll2) = (Outcome.exited r, log) := by
  by_cases hv : paramsValid p = true
  · rw [run_module_valid p cm env hv] at h
    by_cases hping : env.pingOk = true
    · by_cases hn : p.nodes.length > 0
      · cases hcol : collectNodesStatus env.query1 p.nodes [] with
        | error pr =>
          obtain ⟨m, ll⟩ := pr
          have hrun : runAfterChecks p cm env =
              (Outcome.failed m initResult, ExtCall.ping :: ll) := by
            unfold runAfterChecks
            rw [hping, hcol]
            simp [hn]
          rw [hrun] at h
          simp at h
        | ok pr =>
          obtain ⟨d1, ll1⟩ := pr
          by_cases hpt : pyTruthy p.new_state = true
          · cases hloop : applyLoop (pyStr p.new_state) p.new_state_reason cm env d1
                p.nodes initResult with
            | error pr2 =>
              obtain ⟨e, ll2⟩ := pr2
              cases e with
              | keyError n =>
                have hrun : runAfterChecks p cm env =
                    (Outcome.crashed s!"KeyError: {n}", ExtCall.ping :: ll1 ++ ll2) := by
                  unfold runAfterChecks
                  rw [hping, hcol]
                  simp only [Bool.not_true, Bool.false_eq_true, if_false, if_pos hn,
                    if_pos hpt]
                  rw [hloop]
                rw [hrun] at h
                simp at h
              | updateFailed cmd rf =>
                have hrun : runAfterChecks p cm env =
                    (Outcome.failed s!"Calling {cmd} failed" rf,
                     ExtCall.ping :: ll1 ++ ll2) := by
                  unfold runAfterChecks
                  rw [hping, hcol]
                  simp only [Bool.not_true, Bool.false_eq_true, if_false, if_pos hn,
                    if_pos hpt]
                  rw [hloop]
                rw [hrun] at h
                simp at h
            | ok pr2 =>
              obtain ⟨rmid, ll2⟩ := pr2
              have hrun : runAfterChecks p cm env =
                  finishUp p env d1 rmid (ExtCall.ping :: ll1 ++ ll2) := by
                unfold runAfterChecks
                rw [hping, hcol]
                simp only [Bool.not_true, Bool.false_eq_true, if_false, if_pos hn,
                  if_pos hpt]
                rw [hloop]
              rw [hrun] at h
              exact ⟨d1, ll1, rmid, ll2, rfl, Or.inl ⟨hpt, hloop⟩, h⟩
          · have hpt' : pyTruthy p.new_state = false := by simpa using hpt
            have hrun : runAfterChecks p cm env =
                finishUp p env d1 initResult (ExtCall.ping :: ll1) := by
              unfold runAfterChecks
              rw [hping, hcol]
              simp [hn, hpt']
            rw [hrun] at h
            refine ⟨d1, ll1, initResult, [], rfl, Or.inr ⟨hpt', rfl, rfl⟩, ?_⟩
            have hnil : ExtCall.ping :: ll1 ++ ([] : List ExtCall) = ExtCall.ping :: ll1 := by
              simp
            rw [hnil]
            exact h
      · have hn' : p.nodes.length = 0 := by omega
        have hrun : runAfterChecks p cm env =
            (Outcome.failed "No nodes provided, that's unexpeted." initResult,
             [ExtCall.ping]) := by
          unfold runAfterChecks
          rw [hping]
          simp [hn']
        rw [hrun] at h
        simp at h
    · have hping' : env.pingOk = false := by simpa using hping
      have hrun : runAfterChecks p cm env =
          (Outcome.failed "Calling scontrol ping failed" initResult, [ExtCall.ping]) := by
        unfold runAfterChecks
        rw [hping']
        simp
      rw [hrun] at h
      simp at h
  · have hv' : paramsValid p = false := by simpa using hv
    rcases run_module_invalid p cm env hv' with hbad | hbad <;>
      rw [hbad] at h <;> simp at h

lemma any_iff_filter_map_ne (l : List String) (f : String → Bool) (g : String → String) :
    (l.any f = true) ↔ (l.filter f).map g ≠ [] := by
  rw [Ne, List.map_eq_nil_iff, List.any_eq_true, List.filter_eq_nil_iff]
  constructor
  · rintro ⟨x, hx, hf⟩ hnil
    exact hnil x hx hf
  · intro hne
    by_contra hno
    exact hne fun a ha hfa => hno ⟨a, ha, hfa⟩

lemma run_exited_plan (p : Params) (cm : Bool) (env : Env) (r : ModuleResult)
    (log : List ExtCall) (d1 : List (String × NodeRecord)) (ll1 : List ExtCall)
    (h : run_module p cm env = (Outcome.exited r, log))
    (ht : pyTruthy p.new_state = true)
    (hc : collectNodesStatus env.query1 p.nodes [] = Except.ok (d1, ll1)) :
    r.scontrol_commands = (p.nodes.filter
        (actionNeeded d1 (pyStr p.new_state) p.new_state_reason)).map
        (fun n => cmdFor n (pyStr p.new_state) p.new_state_reason) ∧
    (r.changed = true ↔ ∃ n ∈ p.nodes,
        actionNeeded d1 (pyStr p.new_state) p.new_state_reason n = true) ∧
    r.changed = r.scontrol_update_ran := by
  obtain ⟨d1', ll1', rmid, ll2, hcol, hmid, hfin⟩ := run_exited_cases p cm env r log h
  have hinj := hc.symm.trans hcol
  simp only [Except.ok.injEq, Prod.mk.injEq] at hinj
  obtain ⟨hd, hl⟩ := hinj
  subst hd
  rcases hmid with ⟨-, hloop⟩ | ⟨hptf, -, -⟩
  · obtain ⟨hcmd, hup, -, -, -, -⟩ :=
      applyLoop_ok (pyStr p.new_state) p.new_state_reason cm env d1 p.nodes
        initResult rmid ll2 hloop
    obtain ⟨hch, hur, hcm2, -, -, -⟩ := finishUp_exited p env d1 rmid _ log r hfin
    refine ⟨?_, ?_, hch.trans hur.symm⟩
    · rw [hcm2, hcmd]
      simp [initResult]
    · rw [hch, hup]
      simp only [initResult, Bool.false_or]
      exact List.any_eq_true
  · rw [ht] at hptf
    simp at hptf

/-- C1 counterexample: in check mode with a non-empty plan the run reports
`changed = true` although no action was submitted for execution (the trace
contains no update call), contradicting the claim that dry-run-recorded
actions cannot make `changed` true. -/
theorem slurm_C1_counterexample :
    (run_module ⟨["n2"], some "DRAIN", some "mnt"⟩ true envBase).1 =
      Outcome.exited
        { changed := true, state_changed := true, reason_changed := true,
          scontrol_commands := ["scontrol update node=n2 state=DRAIN reason=\"mnt\""],
          data := some [("n2", ⟨["IDLE"], ""⟩)], scontrol_update_ran := true } ∧
    updatesOf (run_module ⟨["n2"], some "DRAIN", some "mnt"⟩ true envBase).2 = [] := by
  constructor
  · decide
  · decide

/-- C1 (amended): in every completed run the report's `changed` equals
`scontrol_update_ran`, and `changed` is true iff the issued-commands list
is non-empty — an action recorded under check mode, where submission is
suppressed, still makes `changed` true. -/
theorem slurm_C1_changed_amended (p : Params) (cm : Bool) (env : Env)
    (r : ModuleResult) (log : List ExtCall)
    (h : run_module p cm env = (Outcome.exited r, log)) :
    r.changed = r.scontrol_update_ran ∧
    (r.changed = true ↔ r.scontrol_commands ≠ []) := by
  obtain ⟨d1, ll1, rmid, ll2, hcol, hmid, hfin⟩ := run_exited_cases p cm env r log h
  obtain ⟨hch, hur, hcm2, -, -, -⟩ := finishUp_exited p env d1 rmid _ log r hfin
  rcases hmid with ⟨hpt, hloop⟩ | ⟨hptf, hrm, hll⟩
  · obtain ⟨hcmd, hup, -, -, -, -⟩ :=
      applyLoop_ok (pyStr p.new_state) p.new_state_reason cm env d1 p.nodes
        initResult rmid ll2 hloop
    refine ⟨hch.trans hur.symm, ?_⟩
    rw [hch, hup, hcm2, hcmd]
    simp only [initResult, Bool.false_or, List.nil_append]
    exact any_iff_filter_map_ne p.nodes _ _
  · refine ⟨hch.trans hur.symm, ?_⟩
    rw [hch, hcm2, hrm]
    simp [initResult]

/-- C1 witness: the amended statement evaluated on a completed real run. -/
theorem slurm_C1_witness :
    rC1w.changed = rC1w.scontrol_update_ran ∧
    (rC1w.changed = true ↔ rC1w.scontrol_commands ≠ []) :=
  slurm_C1_changed_amended ⟨["n1"], some "DRAIN", some "mnt"⟩ false envBase rC1w
    [ExtCall.ping, ExtCall.query "n1",
     ExtCall.update "scontrol update node=n1 state=DRAIN reason=\"mnt\"",
     ExtCall.query "n1"] (by decide)

/-- C8: in every completed run with a desired state, the issued plan is
exactly one action per node whose decision requires one (in node order),
and `changed` is true iff some node's decision required an action; in
particular with every node already in the target state and reason the plan
is empty and `changed` is false. -/
theorem slurm_C8_plan_iff_decision (p : Params) (cm : Bool) (env : Env)
    (r : ModuleResult) (log : List ExtCall) (d1 : List (String × NodeRecord))
    (ll1 : List ExtCall)
    (h : run_module p cm env = (Outcome.exited r, log))
    (ht : pyTruthy p.new_state = true)
    (hc : collectNodesStatus env.query1 p.nodes [] = Except.ok (d1, ll1)) :
    r.scontrol_commands = (p.nodes.filter
        (actionNeeded d1 (pyStr p.new_state) p.new_state_reason)).map
        (fun n => cmdFor n (pyStr p.new_state) p.new_state_reason) ∧
    (r.changed = true ↔ ∃ n ∈ p.nodes,
        actionNeeded d1 (pyStr p.new_state) p.new_state_reason n = true) :=
  ⟨(run_exited_plan p cm env r log d1 ll1 h ht hc).1,
   (run_exited_plan p cm env r log d1 ll1 h ht hc).2.1⟩

/-- C8 witness: the idempotent scenario — both nodes already drained with
the desired reason — yields an empty plan and `changed = false`. -/
theorem slurm_C8_witness :
    rIdem.scontrol_commands = ((["n1", "n2"] : List String).filter
        (actionNeeded dIdem "DRAIN" (some "mnt"))).map
        (fun n => cmdFor n "DRAIN" (some "mnt")) ∧
    (rIdem.changed = true ↔ ∃ n ∈ (["n1", "n2"] : List String),
        actionNeeded dIdem "DRAIN" (some "mnt") n = true) :=
  slurm_C8_plan_iff_decision ⟨["n1", "n2"], some "DRAIN", some "mnt"⟩ false envIdem
    rIdem [ExtCall.ping, ExtCall.query "n1", ExtCall.query "n2"] dIdem
    [ExtCall.query "n1", ExtCall.query "n2"] (by decide) (by decide) rfl

lemma updatesOf_append (l1 l2 : List ExtCall) :
    updatesOf (l1 ++ l2) = updatesOf l1 ++ updatesOf l2 := by
  simp [updatesOf, List.filterMap_append]

lemma updatesOf_ping_cons (l : List ExtCall) :
    updatesOf (ExtCall.ping :: l) = updatesOf l := by
  simp [updatesOf, List.filterMap_cons]

lemma updatesOf_queries (qs : List String) :
    updatesOf (qs.map ExtCall.query) = [] := by
  induction qs with
  | nil => rfl
  | cons q Q ih => simp [updatesOf, List.filterMap_cons]

lemma finishUp_updates (p : Params) (env : Env) (d1 : List (String × NodeRecord))
    (rmid : ModuleResult) (log0 log : List ExtCall) (out : Outcome)
    (h : finishUp p env d1 rmid log0 = (out, log)) :
    updatesOf log = updatesOf log0 := by
  unfold finishUp at h
  by_cases hup : rmid.scontrol_update_ran = true
  · rw [if_pos hup] at h
    cases hcol : collectNodesStatus env.query2 p.nodes [] with
    | error pr =>
      obtain ⟨m, ll⟩ := pr
      rw [hcol] at h
      simp only [Prod.mk.injEq] at h
      obtain ⟨qs, hqs⟩ := collect_error_log env.query2 p.nodes [] m ll hcol
      rw [← h.2, updatesOf_append, hqs, updatesOf_queries]
      simp
    | ok pr =>
      obtain ⟨d2, ll⟩ := pr
      rw [hcol] at h
      simp only [Prod.mk.injEq] at h
      have hqs := collect_ok_log env.query2 p.nodes [] d2 ll hcol
      rw [← h.2, updatesOf_append, hqs, updatesOf_queries]
      simp
  · rw [if_neg hup] at h
    simp only [Prod.mk.injEq] at h
    rw [← h.2]

/-- C3 counterexample: in check mode with a non-empty plan the adapter's
update is indeed never invoked, but the reported `data` is a fresh second
collection, not the initial snapshot: here the re-query returns a
different record, so the final snapshot differs from the one collected
before diffing, contradicting the claim. -/
theorem slurm_C3_counterexample :
    run_module pC3 true envC3 =
      (Outcome.exited rC3x, [ExtCall.ping, ExtCall.query "n2", ExtCall.query "n2"]) ∧
    collectNodesStatus envC3.query1 pC3.nodes [] =
      Except.ok ([("n2", ⟨["IDLE"], ""⟩)], [ExtCall.query "n2"]) ∧
    rC3x.data ≠ some [("n2", ⟨["IDLE"], ""⟩)] := by
  refine ⟨by decide, rfl, by decide⟩

/-- C3 (amended): in every check-mode run no update call is ever made (the
trace contains no update entry); every planned action is still recorded in
the issued-commands list (one per node whose decision requires action); and
when any action was recorded the reported snapshot is a fresh second
collection through the adapter, equal to the initial snapshot only if the
re-query happens to return the same records. -/
theorem slurm_C3_dry_run_amended :
    (∀ p env out log, run_module p true env = (out, log) → updatesOf log = []) ∧
    (∀ p env r log, run_module p true env = (Outcome.exited r, log) →
      r.scontrol_update_ran = true →
      ∃ d2 ll, collectNodesStatus env.query2 p.nodes [] = Except.ok (d2, ll) ∧
        r.data = some d2) ∧
    (∀ p env r log d1 ll1, run_module p true env = (Outcome.exited r, log) →
      pyTruthy p.new_state = true →
      collectNodesStatus env.query1 p.nodes [] = Except.ok (d1, ll1) →
      r.scontrol_commands = (p.nodes.filter
          (actionNeeded d1 (pyStr p.new_state) p.new_state_reason)).map
          (fun n => cmdFor n (pyStr p.new_state) p.new_state_reason)) := by
  refine ⟨?_, ?_, ?_⟩
  · intro p env out log h
    by_cases hv : paramsValid p = true
    · rw [run_module_valid p true env hv] at h
      by_cases hping : env.pingOk = true
      · by_cases hn : p.nodes.length > 0
        · cases hcol : collectNodesStatus env.query1 p.nodes [] with
          | error pr =>
            obtain ⟨m, ll⟩ := pr
            have hrun : runAfterChecks p true env =
                (Outcome.failed m initResult, ExtCall.ping :: ll) := by
              unfold runAfterChecks
              rw [hping, hcol]
              simp [hn]
            rw [hrun] at h
            obtain ⟨qs, hqs⟩ := collect_error_log env.query1 p.nodes [] m ll hcol
            rw [← (Prod.mk.injEq _ _ _ _ |>.mp h).2, updatesOf_ping_cons, hqs,
              updatesOf_queries]
          | ok pr =>
            obtain ⟨d1, ll1⟩ := pr
            have hll1 := collect_ok_log env.query1 p.nodes [] d1 ll1 hcol
            by_cases hpt : pyTruthy p.new_state = true
            · cases hloop : applyLoop (pyStr p.new_state) p.new_state_reason true env d1
                  p.nodes initResult with
              | error pr2 =>
                obtain ⟨e, ll2⟩ := pr2
                have hll2 : ll2 = [] := by
                  have := applyLoop_check_log (pyStr p.new_state) p.new_state_reason env
                    d1 p.nodes initResult
                  rw [hloop] at this
                  simpa [loopLog] using this
                cases e with
                | keyError n =>
                  have hrun : runAfterChecks p true env =
                      (Outcome.crashed s!"KeyError: {n}", ExtCall.ping :: ll1 ++ ll2) := by
                    unfold runAfterChecks
                    rw [hping, hcol]
                    simp only [Bool.not_true, Bool.false_eq_true, if_false, if_pos hn,
                      if_pos hpt]
                    rw [hloop]
                  rw [hrun] at h
                  rw [← (Prod.mk.injEq _ _ _ _ |>.mp h).2]
                  simp [hll1, hll2, updatesOf_append, updatesOf_ping_cons, updatesOf_queries]
                | updateFailed cmd rf =>
                  have hrun : runAfterChecks p true env =
                      (Outcome.failed s!"Calling {cmd} failed" rf,
                       ExtCall.ping :: ll1 ++ ll2) := by
                    unfold runAfterChecks
                    rw [hping, hcol]
                    simp only [Bool.not_true, Bool.false_eq_true, if_false, if_pos hn,
                      if_pos hpt]
                    rw [hloop]
                  rw [hrun] at h
                  rw [← (Prod.mk.injEq _ _ _ _ |>.mp h).2]
                  simp [hll1, hll2, updatesOf_append, updatesOf_ping_cons, updatesOf_queries]
              | ok pr2 =>
                obtain ⟨rmid, ll2⟩ := pr2
                have hll2 : ll2 = [] := by
                  have := applyLoop_check_log (pyStr p.new_state) p.new_state_reason env
                    d1 p.nodes initResult
                  rw [hloop] at this
                  simpa [loopLog] using this
                have hrun : runAfterChecks p true env =
                    finishUp p env d1 rmid (ExtCall.ping :: ll1 ++ ll2) := by
                  unfold runAfterChecks
                  rw [hping, hcol]
                  simp only [Bool.not_true, Bool.false_eq_true, if_false, if_pos hn,
                    if_pos hpt]
                  rw [hloop]
                rw [hrun] at h
                rw [finishUp_updates p env d1 rmid _ log out h]
                simp [hll1, hll2, updatesOf_append, updatesOf_ping_cons, updatesOf_queries]
            · have hpt' : pyTruthy p.new_state = false := by simpa using hpt
              have hrun : runAfterChecks p true env =
                  finishUp p env d1 initResult (ExtCall.ping :: ll1) := by
                unfold runAfterChecks
                rw [hping, hcol]
                simp [hn, hpt']
              rw [hrun] at h
              rw [finishUp_updates p env d1 initResult _ log out h,
                updatesOf_ping_cons, hll1, updatesOf_queries]
        · have hn' : p.nodes.length = 0 := by omega
          have hrun : runAfterChecks p true env =
              (Outcome.failed "No nodes provided, that's unexpeted." initResult,
               [ExtCall.ping]) := by
            unfold runAfterChecks
            rw [hping]
            simp [hn']
          rw [hrun] at h
          rw [← (Prod.mk.injEq _ _ _ _ |>.mp h).2]
          rfl
      · have hping' : env.pingOk = false := by simpa using hping
        have hrun : runAfterChecks p true env =
            (Outcome.failed "Calling scontrol ping failed" initResult, [ExtCall.ping]) := by
          unfold runAfterChecks
          rw [hping']
          simp
        rw [hrun] at h
        rw [← (Prod.mk.injEq _ _ _ _ |>.mp h).2]
        rfl
    · have hv' : paramsValid p = false := by simpa using hv
      rcases run_module_invalid p true env hv' with hbad | hbad <;>
        rw [hbad] at h <;> rw [← (Prod.mk.injEq _ _ _ _ |>.mp h).2] <;> rfl
  · intro p env r log h hup
    obtain ⟨d1, ll1, rmid, ll2, hcol, hmid, hfin⟩ := run_exited_cases p true env r log h
    obtain ⟨-, hur, -, -, -, hdata⟩ := finishUp_exited p env d1 rmid _ log r hfin
    rcases hdata with ⟨-, d2, ll, hcol2, hd, -⟩ | ⟨hmidup, -, -⟩
    · exact ⟨d2, ll, hcol2, hd⟩
    · rw [hup] at hur
      rw [← hur] at hmidup
      simp at hmidup
  · intro p env r log d1 ll1 h ht hc
    exact (run_exited_plan p true env r log d1 ll1 h ht hc).1

/-- C3 witness: the amended statement evaluated on the concrete check-mode
run of `pC3` under `envC3`. -/
theorem slurm_C3_witness :
    updatesOf [ExtCall.ping, ExtCall.query "n2", ExtCall.query "n2"] = [] ∧
    (∃ d2 ll, collectNodesStatus envC3.query2 pC3.nodes [] = Except.ok (d2, ll) ∧
      rC3x.data = some d2) ∧
    rC3x.scontrol_commands = (pC3.nodes.filter
        (actionNeeded [("n2", ⟨["IDLE"], ""⟩)] "DRAIN" (some "mnt"))).map
        (fun n => cmdFor n "DRAIN" (some "mnt")) :=
  ⟨slurm_C3_dry_run_amended.1 pC3 envC3 (Outcome.exited rC3x)
      [ExtCall.ping, ExtCall.query "n2", ExtCall.query "n2"] (by decide),
   slurm_C3_dry_run_amended.2.1 pC3 envC3 rC3x
      [ExtCall.ping, ExtCall.query "n2", ExtCall.query "n2"] (by decide) rfl,
   slurm_C3_dry_run_amended.2.2 pC3 envC3 rC3x
      [ExtCall.ping, ExtCall.query "n2", ExtCall.query "n2"]
      [("n2", ⟨["IDLE"], ""⟩)] [ExtCall.query "n2"] (by decide) (by decide) rfl⟩

lemma replace_keys (d : List (String × NodeRecord)) (k : String) (v : NodeRecord) :
    (d.map (fun p => if p.1 == k then (k, v) else p)).map Prod.fst = d.map Prod.fst := by
  induction d with
  | nil => rfl
  | cons p rest ih =>
    simp only [List.map_cons, ih]
    by_cases h : (p.1 == k) = true
    · simp [h, (eq_of_beq h).symm]
    · simp [h]

lemma dictInsert_keys (d : List (String × NodeRecord)) (k : String) (v : NodeRecord) :
    (dictInsert d k v).map Prod.fst =
      if d.any (fun p => p.1 == k) then d.map Prod.fst else d.map Prod.fst ++ [k] := by
  unfold dictInsert
  by_cases h : d.any (fun p => p.1 == k) = true
  · rw [if_pos h, if_pos h, replace_keys]
  · rw [if_neg h, if_neg h]
    simp

lemma dictInsert_mem_keys (d : List (String × NodeRecord)) (k : String) (v : NodeRecord) :
    k ∈ (dictInsert d k v).map Prod.fst := by
  rw [dictInsert_keys]
  by_cases h : d.any (fun p => p.1 == k) = true
  · rw [if_pos h]
    obtain ⟨p, hp, hpk⟩ := List.any_eq_true.mp h
    exact List.mem_map.mpr ⟨p, hp, eq_of_beq hpk⟩
  · rw [if_neg h]
    simp

lemma dictInsert_keys_sub (d : List (String × NodeRecord)) (k : String) (v : NodeRecord)
    (x : String) (hx : x ∈ d.map Prod.fst) : x ∈ (dictInsert d k v).map Prod.fst := by
  rw [dictInsert_keys]
  split
  · exact hx
  · simp [hx]

lemma dictInsert_keys_nodup (d : List (String × NodeRecord)) (k : String) (v : NodeRecord)
    (h : (d.map Prod.fst).Nodup) : ((dictInsert d k v).map Prod.fst).Nodup := by
  rw [dictInsert_keys]
  by_cases hany : d.any (fun p => p.1 == k) = true
  · rw [if_pos hany]
    exact h
  · rw [if_neg hany]
    have hk : k ∉ d.map Prod.fst := by
      intro hmem
      obtain ⟨p, hp, hpk⟩ := List.mem_map.mp hmem
      exact hany (List.any_eq_true.mpr ⟨p, hp, by simp [hpk]⟩)
    rw [List.nodup_append]
    refine ⟨h, List.nodup_singleton k, ?_⟩
    intro x hx hx2
    rw [List.mem_singleton] at hx2
    subst hx2
    exact hk hx

lemma collect_ok_keys (q : String → Option NodeRecord) :
    ∀ nodes acc d ll, collectNodesStatus q nodes acc = Except.ok (d, ll) →
      ((acc.map Prod.fst).Nodup → (d.map Prod.fst).Nodup) ∧
      (∀ n ∈ nodes, n ∈ d.map Prod.fst) ∧
      (∀ k, k ∈ acc.map Prod.fst → k ∈ d.map Prod.fst) := by
  intro nodes
  induction nodes with
  | nil =>
    intro acc d ll h
    simp only [collectNodesStatus, Except.ok.injEq, Prod.mk.injEq] at h
    rw [← h.1]
    exact ⟨fun ha => ha, by simp, fun k hk => hk⟩
  | cons n rest ih =>
    intro acc d ll h
    cases hq : q n with
    | none => simp [collectNodesStatus, hq] at h
    | some obs =>
      cases hrec : collectNodesStatus q rest (dictInsert acc n obs) with
      | error pr =>
        obtain ⟨m, ll1⟩ := pr
        simp [collectNodesStatus, hq, hrec] at h
      | ok pr =>
        obtain ⟨d1, ll1⟩ := pr
        simp only [collectNodesStatus, hq, hrec, Except.ok.injEq, Prod.mk.injEq] at h
        obtain ⟨hd, -⟩ := h
        rw [← hd]
        obtain ⟨hnd, hmm, hsub⟩ := ih _ _ _ hrec
        refine ⟨fun hacc => hnd (dictInsert_keys_nodup _ _ _ hacc), ?_, ?_⟩
        · intro x hx
          rcases List.mem_cons.mp hx with hx | hx
          · rw [hx]
            exact hsub n (dictInsert_mem_keys acc n obs)
          · exact hmm x hx
        · intro k hk
          exact hsub k (dictInsert_keys_sub _ _ _ _ hk)

lemma lastStateFlag_append (d : List (String × NodeRecord)) (ns : String) :
    ∀ init lastN b, lastStateFlag d ns (init ++ [lastN]) b = nodeStateFlag d ns lastN := by
  intro init
  induction init with
  | nil => intro lastN b; rfl
  | cons m rest ih =>
    intro lastN b
    rw [List.cons_append, lastStateFlag]
    exact ih lastN _

lemma lastReasonFlag_append (d : List (String × NodeRecord)) (ro : Option String) :
    ∀ init lastN b, lastReasonFlag d ro (init ++ [lastN]) b = nodeReasonFlag d ro lastN := by
  intro init
  induction init with
  | nil => intro lastN b; rfl
  | cons m rest ih =>
    intro lastN b
    rw [List.cons_append, lastReasonFlag]
    exact ih lastN _

/-- C9 counterexample: the report's `state_changed`/`reason_changed` are
single scalar fields holding only the last node's comparison, not per-node
entries: here node `n1` required (and received) an action with a true
state-change decision, yet the completed report carries
`state_changed = false` (node `n2`'s decision); `n1`'s decision appears
nowhere in the report. -/
theorem slurm_C9_counterexample :
    run_module pC9 false envC9 = (Outcome.exited rC9x, logC9) ∧
    rC9x.state_changed = false ∧
    stateChanged ⟨["IDLE"], "mnt"⟩ "DRAIN" = true ∧
    rC9x.scontrol_commands = ["scontrol update node=n1 state=DRAIN reason=\"mnt\""] := by
  refine ⟨by decide, by decide, by decide, by decide⟩

/-- C9 (amended): in every completed run the reported `data` mapping has
each caller-supplied node exactly once as a key; the `state_changed` and
`reason_changed` fields are single booleans equal to the decision computed
for the last node of the caller's list (the loop overwrites them per
iteration), not a per-node mapping. -/
theorem slurm_C9_report_keys_amended :
    (∀ p cm env r log, run_module p cm env = (Outcome.exited r, log) →
      ∃ d, r.data = some d ∧ (d.map Prod.fst).Nodup ∧
        ∀ n ∈ p.nodes, List.count n (d.map Prod.fst) = 1) ∧
    (∀ p cm env r log init lastN obs d1 ll1,
      run_module p cm env = (Outcome.exited r, log) →
      pyTruthy p.new_state = true →
      p.nodes = init ++ [lastN] →
      collectNodesStatus env.query1 p.nodes [] = Except.ok (d1, ll1) →
      dictGet d1 lastN = some obs →
      r.state_changed = stateChanged obs (pyStr p.new_state) ∧
      r.reason_changed = reasonChanged obs p.new_state_reason) := by
  constructor
  · intro p cm env r log h
    obtain ⟨d1, ll1, rmid, ll2, hcol, hmid, hfin⟩ := run_exited_cases p cm env r log h
    obtain ⟨-, -, -, -, -, hdata⟩ := finishUp_exited p env d1 rmid _ log r hfin
    have keys1 := collect_ok_keys env.query1 p.nodes [] d1 ll1 hcol
    rcases hdata with ⟨-, d2, ll, hcol2, hd, -⟩ | ⟨-, hd, -⟩
    · have keys2 := collect_ok_keys env.query2 p.nodes [] d2 ll hcol2
      refine ⟨d2, hd, keys2.1 (by simp), fun n hn => ?_⟩
      exact List.count_eq_one_of_mem (keys2.1 (by simp)) (keys2.2.1 n hn)
    · refine ⟨d1, hd, keys1.1 (by simp), fun n hn => ?_⟩
      exact List.count_eq_one_of_mem (keys1.1 (by simp)) (keys1.2.1 n hn)
  · intro p cm env r log init lastN obs d1 ll1 h ht hnodes hc hobs
    obtain ⟨d1', ll1', rmid, ll2, hcol, hmid, hfin⟩ := run_exited_cases p cm env r log h
    have hinj := hc.symm.trans hcol
    simp only [Except.ok.injEq, Prod.mk.injEq] at hinj
    obtain ⟨hd, -⟩ := hinj
    subst hd
    rcases hmid with ⟨-, hloop⟩ | ⟨hptf, -, -⟩
    · obtain ⟨-, -, hsf, hrf, -, -⟩ :=
        applyLoop_ok (pyStr p.new_state) p.new_state_reason cm env d1 p.nodes
          initResult rmid ll2 hloop
      obtain ⟨-, -, -, hsf2, hrf2, -⟩ := finishUp_exited p env d1 rmid _ log r hfin
      rw [hnodes] at hsf hrf
      rw [lastStateFlag_append] at hsf
      rw [lastReasonFlag_append] at hrf
      constructor
      · rw [hsf2, hsf, nodeStateFlag, hobs]
      · rw [hrf2, hrf, nodeReasonFlag, hobs]
    · rw [ht] at hptf
      simp at hptf

/-- C9 witness: the amended statement evaluated on the concrete two-node
run of `pC9` under `envC9`. -/
theorem slurm_C9_witness :
    (∃ d, rC9x.data = some d ∧ (d.map Prod.fst).Nodup ∧
      ∀ n ∈ pC9.nodes, List.count n (d.map Prod.fst) = 1) ∧
    (rC9x.state_changed = stateChanged recDrained "DRAIN" ∧
     rC9x.reason_changed = reasonChanged recDrained (some "mnt")) :=
  ⟨slurm_C9_report_keys_amended.1 pC9 false envC9 rC9x logC9 (by decide),
   slurm_C9_report_keys_amended.2 pC9 false envC9 rC9x logC9 ["n1"] "n2" recDrained
     dC9 [ExtCall.query "n1", ExtCall.query "n2"] (by decide) (by decide) rfl rfl rfl⟩

lemma update_notin_queries (c : String) (qs : List String) :
    ExtCall.update c ∉ qs.map ExtCall.query := by
  intro h
  obtain ⟨a, -, ha⟩ := List.mem_map.mp h
  exact ExtCall.noConfusion ha

lemma finishUp_log_parts (p : Params) (env : Env) (d1 : List (String × NodeRecord))
    (rmid : ModuleResult) (log0 log : List ExtCall) (out : Outcome)
    (h : finishUp p env d1 rmid log0 = (out, log)) :
    log = log0 ∨ ∃ qs : List String, log = log0 ++ qs.map ExtCall.query := by
  unfold finishUp at h
  by_cases hup : rmid.scontrol_update_ran = true
  · rw [if_pos hup] at h
    cases hcol : collectNodesStatus env.query2 p.nodes [] with
    | error pr =>
      obtain ⟨m, ll⟩ := pr
      rw [hcol] at h
      simp only [Prod.mk.injEq] at h
      obtain ⟨qs, hqs⟩ := collect_error_log env.query2 p.nodes [] m ll hcol
      exact Or.inr ⟨qs, by rw [← h.2, hqs]⟩
    | ok pr =>
      obtain ⟨d2, ll⟩ := pr
      rw [hcol] at h
      simp only [Prod.mk.injEq] at h
      have hqs := collect_ok_log env.query2 p.nodes [] d2 ll hcol
      exact Or.inr ⟨p.nodes, by rw [← h.2, hqs]⟩
  · rw [if_neg hup] at h
    simp only [Prod.mk.injEq] at h
    exact Or.inl h.2.symm

/-- C2 counterexample: the first update command reports non-success (exit
code 1), yet the run does not abort: the second action is still submitted,
the final re-collection is performed, and the run completes normally —
contradicting the claim that any non-success submission aborts the run. -/
theorem slurm_C2_counterexample :
    envRc.update "scontrol update node=n1 state=DRAIN reason=\"mnt\"" = some 1 ∧
    run_module ⟨["n1", "n2"], some "DRAIN", some "mnt"⟩ false envRc =
      (Outcome.exited
        { changed := true, state_changed := true, reason_changed := true,
          scontrol_commands := ["scontrol update node=n1 state=DRAIN reason=\"mnt\"",
            "scontrol update node=n2 state=DRAIN reason=\"mnt\""],
          data := some [("n1", ⟨["IDLE"], ""⟩), ("n2", ⟨["IDLE"], ""⟩)],
          scontrol_update_ran := true },
       [ExtCall.ping, ExtCall.query "n1", ExtCall.query "n2",
        ExtCall.update "scontrol update node=n1 state=DRAIN reason=\"mnt\"",
        ExtCall.update "scontrol update node=n2 state=DRAIN reason=\"mnt\"",
        ExtCall.query "n1", ExtCall.query "n2"]) :=
  ⟨rfl, by decide⟩

/-- C2 (amended): in every non-dry-run execution, if the invocation of an
issued update raises (the submission cannot be executed: `env.update c`
is `none` for an update call `c` appearing in the trace), the run aborts
immediately: it terminates as a failure whose message names the failing
command, and that submission is the last external call of the whole run —
no later action is submitted and no final re-collection is performed.  A
non-success exit status returned by a submitted update, by contrast, is
discarded (see the counterexample). -/
theorem slurm_C2_abort_amended (p : Params) (env : Env) (out : Outcome)
    (log : List ExtCall) (c : String)
    (hrun : run_module p false env = (out, log))
    (hmem : ExtCall.update c ∈ log)
    (hnone : env.update c = none) :
    (∃ rf, out = Outcome.failed (s!"Calling {c} failed") rf) ∧
    log.getLast? = some (ExtCall.update c) := by
  by_cases hv : paramsValid p = true
  · rw [run_module_valid p false env hv] at hrun
    by_cases hping : env.pingOk = true
    · by_cases hn : p.nodes.length > 0
      · cases hcol : collectNodesStatus env.query1 p.nodes [] with
        | error pr =>
          obtain ⟨m, ll⟩ := pr
          have hq : runAfterChecks p false env =
              (Outcome.failed m initResult, ExtCall.ping :: ll) := by
            unfold runAfterChecks
            rw [hping, hcol]
            simp [hn]
          rw [hq] at hrun
          obtain ⟨-, hlog⟩ := Prod.mk.injEq _ _ _ _ |>.mp hrun
          rw [← hlog] at hmem
          obtain ⟨qs, hqs⟩ := collect_error_log env.query1 p.nodes [] m ll hcol
          rcases List.mem_cons.mp hmem with hx | hx
          · exact absurd hx (by simp)
          · rw [hqs] at hx
            exact absurd hx (update_notin_queries c qs)
        | ok pr =>
          obtain ⟨d1, ll1⟩ := pr
          have hll1 := collect_ok_log env.query1 p.nodes [] d1 ll1 hcol
          by_cases hpt : pyTruthy p.new_state = true
          · cases hloop : applyLoop (pyStr p.new_state) p.new_state_reason false env d1
                p.nodes initResult with
            | error pr2 =>
              obtain ⟨e, ll2⟩ := pr2
              cases e with
              | keyError n =>
                have hq : runAfterChecks p false env =
                    (Outcome.crashed s!"KeyError: {n}", ExtCall.ping :: ll1 ++ ll2) := by
                  unfold runAfterChecks
                  rw [hping, hcol]
                  simp only [Bool.not_true, Bool.false_eq_true, if_false, if_pos hn,
                    if_pos hpt]
                  rw [hloop]
                rw [hq] at hrun
                obtain ⟨-, hlog⟩ := Prod.mk.injEq _ _ _ _ |>.mp hrun
                rw [← hlog] at hmem
                have hx : ExtCall.update c ∈ ll2 := by
                  rcases List.mem_append.mp hmem with hx | hx
                  · rcases List.mem_cons.mp hx with hx | hx
                    · exact absurd hx (by simp)
                    · rw [hll1] at hx
                      exact absurd hx (update_notin_queries c p.nodes)
                  · exact hx
                rcases applyLoop_updates (pyStr p.new_state) p.new_state_reason env d1
                    p.nodes initResult with hall | ⟨c2, rf2, pre2, heq, -, -⟩
                · have := hall c (by rw [hloop]; simpa [loopLog] using hx)
                  rw [hnone] at this
                  simp at this
                · rw [hloop] at heq
                  simp at heq
              | updateFailed cmd rf =>
                have hq : runAfterChecks p false env =
                    (Outcome.failed s!"Calling {cmd} failed" rf,
                     ExtCall.ping :: ll1 ++ ll2) := by
                  unfold runAfterChecks
                  rw [hping, hcol]
                  simp only [Bool.not_true, Bool.false_eq_true, if_false, if_pos hn,
                    if_pos hpt]
                  rw [hloop]
                rw [hq] at hrun
                obtain ⟨hout, hlog⟩ := Prod.mk.injEq _ _ _ _ |>.mp hrun
                rw [← hlog] at hmem
                have hx : ExtCall.update c ∈ ll2 := by
                  rcases List.mem_append.mp hmem with hx | hx
                  · rcases List.mem_cons.mp hx with hx | hx
                    · exact absurd hx (by simp)
                    · rw [hll1] at hx
                      exact absurd hx (update_notin_queries c p.nodes)
                  · exact hx
                rcases applyLoop_updates (pyStr p.new_state) p.new_state_reason env d1
                    p.nodes initResult with hall | ⟨c2, rf2, pre2, heq, hnone2, hpresafe⟩
                · have := hall c (by rw [hloop]; simpa [loopLog] using hx)
                  rw [hnone] at this
                  simp at this
                · rw [hloop] at heq
                  simp only [Except.error.injEq, Prod.mk.injEq, LoopExit.updateFailed.injEq] at heq
                  obtain ⟨⟨hc2, hrf2⟩, hll2⟩ := heq
                  rw [hll2] at hx
                  have hcc : c = c2 := by
                    rcases List.mem_append.mp hx with hx2 | hx2
                    · have := hpresafe c hx2
                      rw [hnone] at this
                      simp at this
                    · rw [List.mem_singleton] at hx2
                      cases hx2
                      rfl
                  refine ⟨⟨rf, by rw [← hout, hcc, hc2]⟩, ?_⟩
                  rw [← hlog, hll2, hcc]
                  rw [← List.append_assoc]
                  exact List.getLast?_concat _
            | ok pr2 =>
              obtain ⟨rmid, ll2⟩ := pr2
              have hq : runAfterChecks p false env =
                  finishUp p env d1 rmid (ExtCall.ping :: ll1 ++ ll2) := by
                unfold runAfterChecks
                rw [hping, hcol]
                simp only [Bool.not_true, Bool.false_eq_true, if_false, if_pos hn,
                  if_pos hpt]
                rw [hloop]
              rw [hq] at hrun
              have hx : ExtCall.update c ∈ ll2 := by
                rcases finishUp_log_parts p env d1 rmid _ log out hrun with hlg | ⟨qs, hlg⟩
                · rw [hlg] at hmem
                  rcases List.mem_append.mp hmem with hx | hx
                  · rcases List.mem_cons.mp hx with hx | hx
                    · exact absurd hx (by simp)
                    · rw [hll1] at hx
                      exact absurd hx (update_notin_queries c p.nodes)
                  · exact hx
                · rw [hlg] at hmem
                  rcases List.mem_append.mp hmem with hx | hx
                  · rcases List.mem_append.mp hx with hx | hx
                    · rcases List.mem_cons.mp hx with hx | hx
                      · exact absurd hx (by simp)
                      · rw [hll1] at hx
                        exact absurd hx (update_notin_queries c p.nodes)
                    · exact hx
                  · exact absurd hx (update_notin_queries c qs)
              rcases applyLoop_updates (pyStr p.new_state) p.new_state_reason env d1
                  p.nodes initResult with hall | ⟨c2, rf2, pre2, heq, -, -⟩
              · have := hall c (by rw [hloop]; simpa [loopLog] using hx)
                rw [hnone] at this
                simp at this
              · rw [hloop] at heq
                simp at heq
          · have hpt' : pyTruthy p.new_state = false := by simpa using hpt
            have hq : runAfterChecks p false env =
                finishUp p env d1 initResult (ExtCall.ping :: ll1) := by
              unfold runAfterChecks
              rw [hping, hcol]
              simp [hn, hpt']
            rw [hq] at hrun
            rcases finishUp_log_parts p env d1 initResult _ log out hrun with hlg | ⟨qs, hlg⟩
            · rw [hlg] at hmem
              rcases List.mem_cons.mp hmem with hx | hx
              · exact absurd hx (by simp)
              · rw [hll1] at hx
                exact absurd hx (update_notin_queries c p.nodes)
            · rw [hlg] at hmem
              rcases List.mem_append.mp hmem with hx | hx
              · rcases List.mem_cons.mp hx with hx | hx
                · exact absurd hx (by simp)
                · rw [hll1] at hx
                  exact absurd hx (update_notin_queries c p.nodes)
              · exact absurd hx (update_notin_queries c qs)
      · have hn' : p.nodes.length = 0 := by omega
        have hq : runAfterChecks p false env =
            (Outcome.failed "No nodes provided, that's unexpeted." initResult,
             [ExtCall.ping]) := by
          unfold runAfterChecks
          rw [hping]
          simp [hn']
        rw [hq] at hrun
        obtain ⟨-, hlog⟩ := Prod.mk.injEq _ _ _ _ |>.mp hrun
        rw [← hlog] at hmem
        simp at hmem
    · have hping' : env.pingOk = false := by simpa using hping
      have hq : runAfterChecks p false env =
          (Outcome.failed "Calling scontrol ping failed" initResult, [ExtCall.ping]) := by
        unfold runAfterChecks
        rw [hping']
        simp
      rw [hq] at hrun
      obtain ⟨-, hlog⟩ := Prod.mk.injEq _ _ _ _ |>.mp hrun
      rw [← hlog] at hmem
      simp at hmem
  · have hv' : paramsValid p = false := by simpa using hv
    rcases run_module_invalid p false env hv' with hbad | hbad <;>
      rw [hbad] at hrun <;>
      obtain ⟨-, hlog⟩ := Prod.mk.injEq _ _ _ _ |>.mp hrun <;>
      rw [← hlog] at hmem <;> simp at hmem

/-- C2 witness: the amended statement evaluated on the concrete run where
the first update invocation raises. -/
theorem slurm_C2_witness :
    (∃ rf, outC2w = Outcome.failed "Calling scontrol update node=n1 state=DRAIN reason=\"mnt\" failed" rf) ∧
    logC2w.getLast? = some (ExtCall.update cmdN1) :=
  slurm_C2_abort_amended ⟨["n1", "n2"], some "DRAIN", some "mnt"⟩ envRaise outC2w logC2w
    cmdN1 (by decide) (by decide) rfl
